import Mathlib

/-!
Shallow embedding of `src/Sources/SharedCore/cpp/ParquetReader.cpp` (plus its
header `ParquetReader.h`) and proofs about the claims of the specification.

Modelling conventions:
* C `int` / `int64_t` values are Lean `Int`; where the C code performs 32-bit
  arithmetic that can overflow, the wrap-around (two's complement, the observed
  behaviour of the compiled code) is made explicit through `i32wrap`.
* An Arrow table is a list of rows, each row a list of `Cell`s (one per schema
  field); concatenating row groups and slicing act row-wise, exactly as
  `parquet::arrow::FileReader::ReadRowGroups` / `arrow::Table::Slice` do.
* Heap pointers that may be absent are `Option`: `TableData.data = none` models
  the `nullptr` data pointer of the empty result, and an `Option String` cell
  that is `none` models a `char*` slot that was allocated by `new char*[...]`
  but never written by the fill loop (an indeterminate pointer).
* The Arrow file-open / metadata-parse step is a function
  `fs : String → Option ParquetFile`; `none` models any open failure
  (missing file, corrupt metadata, unreadable format).
* IEEE-754 formatting (`snprintf("%.6g", ...)`) is kept abstract: a float cell
  carries its rendered string, since floating point is outside this embedding.
  No claim depends on float formatting.
-/

/-- Arrow physical type tags (`arrow::Type`), restricted to those the switch in
`read_parquet_data` names, plus `other` for every unrecognized physical type
(the `default:` arm). -/
inductive PhysicalType where
  | string
  | int64
  | int32
  | double
  | float
  | bool
  | timestamp
  | date32
  | date64
  | other
deriving DecidableEq

/-- An IEEE-754 value abstracted by its `snprintf("%.6g", v)` rendering; the
floating-point formatting itself is outside the integer/string embedding. -/
structure FloatLit where
  rendered : String
deriving DecidableEq

/-- A non-null typed Arrow value, as seen by the type switch in
`read_parquet_data` (lines 202-276). `vother` is any value whose physical type
falls into the `default:` arm; it carries the (unused) Arrow type name. -/
inductive ArrowValue where
  | vstr (s : String)
  | vi64 (v : Int)
  | vi32 (v : Int)
  | vf64 (r : FloatLit)
  | vf32 (r : FloatLit)
  | vbool (b : Bool)
  | vtimestamp (t : Int)
  | vdate32 (d : Int)
  | vdate64 (m : Int)
  | vother (typeName : String)
deriving DecidableEq

/-- One cell of an Arrow column chunk: either null (`chunk->IsNull(i)`, for any
physical type) or a typed value. -/
inductive Cell where
  | null (ty : PhysicalType)
  | val (v : ArrowValue)
deriving DecidableEq

/-- Two's-complement wrap-around of 32-bit signed `int` arithmetic
(`2147483648 = 2^31`, `4294967296 = 2^32`): the behaviour of the compiled code
when an `int` expression overflows before being widened. -/
def i32wrap (x : Int) : Int :=
  (x + 2147483648) % 4294967296 - 2147483648

/-- Days-to-civil-date conversion (proleptic Gregorian, the computation done by
glibc `gmtime` on the day part of the epoch-seconds value); returns
(year, month, day). -/
def civilFromDays (z0 : Int) : Int × Int × Int :=
  let z := z0 + 719468
  let era := z.fdiv 146097
  let doe := z - era * 146097
  let yoe := (doe - doe.ediv 1460 + doe.ediv 36524 - doe.ediv 146096).ediv 365
  let y := yoe + era * 400
  let doy := doe - (365 * yoe + yoe.ediv 4 - yoe.ediv 100)
  let mp := (5 * doy + 2).ediv 153
  let d := doy - (153 * mp + 2).ediv 5 + 1
  let m := mp + (if mp < 10 then 3 else -9)
  (y + (if m ≤ 2 then 1 else 0), m, d)

/-- Zero-pad to two digits, as `strftime` does for `%m`, `%d`, `%H`, `%M`, `%S`. -/
def pad2 (n : Int) : String :=
  if 0 ≤ n ∧ n < 10 then "0" ++ toString n else toString n

/-- Render the year as `strftime`'s `%Y` does for the four-digit years that can
arise here (all wrapped 32-bit epoch-seconds values fall in 1901..2038). -/
def pad4 (n : Int) : String :=
  toString n

/-- `gmtime` + `strftime("%Y-%m-%d")` applied to an epoch-seconds value (UTC;
glibc handles negative `time_t` by flooring, hence `fdiv`). -/
def formatDate (secs : Int) : String :=
  let days := secs.fdiv 86400
  let c := civilFromDays days
  pad4 c.1 ++ "-" ++ pad2 c.2.1 ++ "-" ++ pad2 c.2.2

/-- `gmtime` + `strftime("%Y-%m-%d %H:%M:%S")` applied to an epoch-seconds
value (UTC). -/
def formatDateTime (secs : Int) : String :=
  let sod := secs.emod 86400
  formatDate secs ++ " " ++ pad2 (sod.ediv 3600) ++ ":" ++
    pad2 ((sod.ediv 60).emod 60) ++ ":" ++ pad2 (sod.emod 60)

/-- The per-value branch of the type switch in `read_parquet_data`
(lines 202-276).  Note the `DATE32` branch: `time_t seconds = days * 86400`
multiplies the `int32_t` day count by the `int` literal `86400` in 32-bit
arithmetic, wrapping before the widening to `time_t` — hence `i32wrap`.
The `TIMESTAMP` branch divides by 1000000 (microseconds assumed) and the
`DATE64` branch by 1000 with C++ truncating division (`Int.tdiv`). -/
def stringifyValue : ArrowValue → String
  | .vstr s => s
  | .vi64 v => toString v
  | .vi32 v => toString v
  | .vf64 r => r.rendered
  | .vf32 r => r.rendered
  | .vbool b => if b then "true" else "false"
  | .vtimestamp t => formatDateTime (t.tdiv 1000000)
  | .vdate32 d => formatDate (i32wrap (d * 86400))
  | .vdate64 m => formatDate (m.tdiv 1000)
  | .vother _ => "UNSUPPORTED"

/-- One cell's conversion: the `chunk->IsNull(i)` check (lines 198-200) runs
before the type switch, so a null of any physical type becomes `"NULL"`. -/
def stringifyCell : Cell → String
  | .null _ => "NULL"
  | .val v => stringifyValue v

/-- A parquet file as the opened, metadata-parsed reader exposes it:
the schema fields (name, type string) and the row groups, each row carrying
one `Cell` per field. -/
structure ParquetFile where
  fields : List (String × String)
  rowGroups : List (List (List Cell))
deriving DecidableEq

/-- Per-row-group row counts, `file_metadata->RowGroup(rg)->num_rows()`. -/
def rgSizes (f : ParquetFile) : List Int :=
  f.rowGroups.map fun g => (g.length : Int)

/-- `file_metadata->num_rows()`: the file's total row count (the parquet footer
stores it; it equals the sum of the row-group row counts). -/
def totalRows (f : ParquetFile) : Int :=
  (rgSizes f).sum

/-- The row-group selection loop of `read_parquet_data` (lines 126-142):
walk the row groups keeping a running total `c` of rows seen; push index `idx`
when `current_row + rg_row_count > start_row && current_row < end_row`; after
adding the group's rows, break as soon as the running total reaches `end_row`. -/
def selectAux (start_row end_row : Int) : List Int → Int → Nat → List Nat
  | [], _, _ => []
  | s :: rest, c, idx =>
    let sel : List Nat := if c + s > start_row ∧ c < end_row then [idx] else []
    if c + s ≥ end_row then sel
    else sel ++ selectAux start_row end_row rest (c + s) (idx + 1)

/-- `row_groups_to_read` as computed by lines 124-142. -/
def selectRowGroups (sizes : List Int) (start_row end_row : Int) : List Nat :=
  selectAux start_row end_row sizes 0 0

/-- The slice-offset loop of `read_parquet_data` (lines 164-175): iterate over
the *selected* row groups, accumulating `current_row` from 0, and set
`offset_in_table = start_row - current_row` at the first selected group with
`current_row + rg_row_count > start_row`; if the loop never triggers the
initial value 0 is kept. -/
def offsetAux (sizes : List Int) (start_row : Int) : List Nat → Int → Int
  | [], _ => 0
  | rg :: rest, c =>
    let sz := sizes.getD rg 0
    if c + sz > start_row then start_row - c
    else offsetAux sizes start_row rest (c + sz)

/-- `offset_in_table` of lines 164-175. -/
def offset_in_table (sizes : List Int) (selected : List Nat) (start_row : Int) : Int :=
  offsetAux sizes start_row selected 0

/-- `arrow::Table::Slice(offset, length)`: drop `offset` rows, keep at most
`length` (Arrow clamps the length to the rows available). -/
def listSlice {α : Type} (l : List α) (offset len : Int) : List α :=
  (l.drop offset.toNat).take len.toNat

/-- The result grid and its allocation/fill (lines 183-283): `new` allocates
`row_count × column_count` cell slots, then the per-column loop writes
`data->data[row_idx][col]` for `row_idx` running over the rows of the (sliced)
table while `row_idx < row_count`.  A slot in a row index at or beyond the
table's length is never written (`none`): `new char*[n]` does not initialize.
Arrow guarantees each table row has one cell per column, so the `getD`
default is never reached on tables coming from a file. -/
def fillGrid (table : List (List Cell)) (row_count : Int) (ncols : Nat) :
    List (List (Option String)) :=
  (List.range row_count.toNat).map fun r =>
    (List.range ncols).map fun c =>
      match table[r]? with
      | some row => some (stringifyCell (row.getD c (Cell.null PhysicalType.other)))
      | none => none

/-- The `TableData` struct of `ParquetReader.h`.  `data = none` models the
`nullptr` data pointer of the empty result; a `none` cell models an allocated
but never-written `char*` slot. -/
structure TableData where
  row_count : Int
  column_count : Int
  data : Option (List (List (Option String)))
deriving DecidableEq

/-- The body of `read_parquet_data` (lines 107-285) once the cached reader is
in hand: clamp the window, pick the row groups, read them (whole-file path when
all groups are selected — the two reads produce the same concatenation), slice
when the table has more rows than requested, and stringify into the grid. -/
def read_parquet_data_core (f : ParquetFile) (start_row num_rows : Int) : TableData :=
  let total_rows := totalRows f
  let end_row := min (i32wrap (start_row + num_rows)) total_rows
  let row_count := end_row - start_row
  if row_count ≤ 0 then { row_count := row_count, column_count := 0, data := none }
  else
    let sizes := rgSizes f
    let row_groups_to_read := selectRowGroups sizes start_row end_row
    let table :=
      if row_groups_to_read.length = f.rowGroups.length then f.rowGroups.flatten
      else (row_groups_to_read.map fun rg => f.rowGroups.getD rg []).flatten
    let sliced :=
      if row_count < (table.length : Int) then
        listSlice table (offset_in_table sizes row_groups_to_read start_row) row_count
      else table
    { row_count := row_count,
      column_count := (f.fields.length : Int),
      data := some (fillGrid sliced row_count f.fields.length) }

/-- Reference read for the refinement claim, following the spec's words:
read the whole file and slice to the requested window (same clamping), then
stringify cell by cell. -/
def readWholeFileThenSlice (f : ParquetFile) (start_row num_rows : Int) : TableData :=
  let end_row := min (i32wrap (start_row + num_rows)) (totalRows f)
  let row_count := end_row - start_row
  if row_count ≤ 0 then { row_count := row_count, column_count := 0, data := none }
  else
    let table := listSlice f.rowGroups.flatten start_row row_count
    { row_count := row_count,
      column_count := (f.fields.length : Int),
      data := some (fillGrid table row_count f.fields.length) }

/-- The `ColumnInfo` struct of `ParquetReader.h`. -/
structure ColumnInfo where
  name : String
  type : String
deriving DecidableEq

/-- The `SchemaInfo` struct of `ParquetReader.h`. -/
structure SchemaInfo where
  columns : List ColumnInfo
  column_count : Int
  row_count : Int
deriving DecidableEq

/-- The process-wide reader cache (`reader_cache`) plus an open-count
instrumentation (the spec's "observable via open-count instrumentation"):
`opens` counts successful `MemoryMappedFile::Open` + `FileReaderBuilder`
completions. -/
structure CacheState where
  cache : List (String × ParquetFile)
  opens : Nat
deriving DecidableEq

/-- `get_cached_reader` (lines 22-65): look the path up in the cache and
return the cached handle unchanged on a hit; on a miss, open and parse the file
(`fs path`; `none` models any open/parse failure, returned as `nullptr`
without touching the cache), and on success insert the fresh handle. -/
def get_cached_reader (fs : String → Option ParquetFile) (s : CacheState)
    (path : String) : Option ParquetFile × CacheState :=
  match s.cache.lookup path with
  | some r => (some r, s)
  | none =>
    match fs path with
    | none => (none, s)
    | some f => (some f, { cache := (path, f) :: s.cache, opens := s.opens + 1 })

/-- `read_parquet_schema` (lines 67-97): acquire the reader, then expose the
schema fields and the total row count; `nullptr` when the reader cannot be
obtained. -/
def read_parquet_schema (fs : String → Option ParquetFile) (s : CacheState)
    (path : String) : Option SchemaInfo × CacheState :=
  match get_cached_reader fs s path with
  | (none, s1) => (none, s1)
  | (some f, s1) =>
      (some { columns := f.fields.map fun fd => { name := fd.1, type := fd.2 },
              column_count := (f.fields.length : Int),
              row_count := totalRows f }, s1)

/-- `read_parquet_data` (lines 99-290): acquire the reader, then run the
window read; `nullptr` when the reader cannot be obtained. -/
def read_parquet_data (fs : String → Option ParquetFile) (s : CacheState)
    (path : String) (start_row num_rows : Int) : Option TableData × CacheState :=
  match get_cached_reader fs s path with
  | (none, s1) => (none, s1)
  | (some f, s1) => (some (read_parquet_data_core f start_row num_rows), s1)

/-- `clear_parquet_cache` (lines 318-322): erase the entry for the path
(`unordered_map::erase` removes the unique entry with that key; on an
association list with unique keys, filtering the key out is exactly that). -/
def clear_parquet_cache (s : CacheState) (path : String) : CacheState :=
  { cache := s.cache.filter fun e => e.1 != path, opens := s.opens }

/-- `clear_all_parquet_cache` (lines 324-327). -/
def clear_all_parquet_cache (s : CacheState) : CacheState :=
  { cache := [], opens := s.opens }

/-- The accesses `free_table_data` (lines 303-316) performs are all valid:
`free_table_data(nullptr)` and a null `data` pointer are guarded no-ops;
otherwise every slot `data[i][j]` for `i < row_count`, `j < column_count` must
exist and hold an initialized pointer for the `free`/`delete[]` loop to be
sound (freeing an indeterminate pointer is an invalid access). -/
def free_table_data_accesses_valid : Option TableData → Bool
  | none => true
  | some d =>
    match d.data with
    | none => true
    | some grid =>
      (List.range d.row_count.toNat).all fun i =>
        match grid[i]? with
        | none => false
        | some row =>
          (List.range d.column_count.toNat).all fun j =>
            match row[j]? with
            | none => false
            | some cell => cell.isSome

/-- The accesses `free_schema_info` (lines 292-301) performs are all valid:
`free_schema_info(nullptr)` is a guarded no-op; otherwise `columns[i]` must
exist for every `i < column_count` (the `name`/`type` strings are always
`strdup`ed at creation). -/
def free_schema_info_accesses_valid : Option SchemaInfo → Bool
  | none => true
  | some info =>
    (List.range info.column_count.toNat).all fun i => (info.columns[i]?).isSome

/-- First cell of a returned table (`data->data[0][0]`), when present and
initialized. -/
def firstCell (td : TableData) : Option String :=
  match td.data with
  | some ((some s :: _) :: _) => some s
  | _ => none

/-- A single-row test cell list for building concrete files. -/
def mkRow (r : Nat) : List Cell :=
  [Cell.val (ArrowValue.vi64 (r : Int))]

/-- Build row groups of the given sizes whose rows are numbered consecutively
from `first`. -/
def mkGroups : List Nat → Nat → List (List (List Cell))
  | [], _ => []
  | s :: rest, first =>
    ((List.range s).map fun i => mkRow (first + i)) :: mkGroups rest (first + s)

/-- A concrete test file with one int64 column whose cell at file row `r`
stringifies to `toString r`, split into row groups of the given sizes. -/
def mkFile (sizes : List Nat) : ParquetFile :=
  { fields := [("value", "int64")], rowGroups := mkGroups sizes 0 }

/-- Running total of rows in the row groups before index `k`. -/
def runningTotal (sizes : List Int) (k : Nat) : Int :=
  (sizes.take k).sum

/-- The claim's notion of interval intersection: `[lo1, hi1) ∩ [lo2, hi2) ≠ ∅`. -/
def intervalIntersects (lo1 hi1 lo2 hi2 : Int) : Prop :=
  max lo1 lo2 < min hi1 hi2

instance (lo1 hi1 lo2 hi2 : Int) : Decidable (intervalIntersects lo1 hi1 lo2 hi2) :=
  inferInstanceAs (Decidable (_ < _))

theorem i32wrap_eq_self (x : Int) (h1 : -2147483648 ≤ x) (h2 : x < 2147483648) :
    i32wrap x = x := by
  unfold i32wrap; omega

theorem read_core_row_count (f : ParquetFile) (start_row num_rows : Int) :
    (read_parquet_data_core f start_row num_rows).row_count
      = min (i32wrap (start_row + num_rows)) (totalRows f) - start_row := by
  simp only [read_parquet_data_core]
  split <;> rfl

theorem read_core_empty_shape (f : ParquetFile) (start_row num_rows : Int)
    (h : min (i32wrap (start_row + num_rows)) (totalRows f) - start_row ≤ 0) :
    (read_parquet_data_core f start_row num_rows).column_count = 0
    ∧ (read_parquet_data_core f start_row num_rows).data = none := by
  simp only [read_parquet_data_core]
  rw [if_pos h]
  exact ⟨rfl, rfl⟩

/-- C1: on the spec's own scenario (10 row groups of 100 rows, request
`start_row = 250, num_rows = 10`) the code selects row group 2 as claimed, but
the slice-offset loop accumulates `current_row` over the *selected* groups only
while comparing against the absolute `start_row`, so it computes
`offset_in_table = 0` instead of `start_row - running_total = 50`, and the
returned first row is file row 200, not 250. -/
theorem c1_slice_offset_scenario :
    totalRows (mkFile (List.replicate 10 100)) = 1000
    ∧ selectRowGroups (rgSizes (mkFile (List.replicate 10 100))) 250 260 = [2]
    ∧ runningTotal (rgSizes (mkFile (List.replicate 10 100))) 2 = 200
    ∧ offset_in_table (rgSizes (mkFile (List.replicate 10 100)))
        (selectRowGroups (rgSizes (mkFile (List.replicate 10 100))) 250 260) 250 = 0
    ∧ (250 : Int) - runningTotal (rgSizes (mkFile (List.replicate 10 100))) 2 = 50
    ∧ firstCell (read_parquet_data_core (mkFile (List.replicate 10 100)) 250 10)
        = some "200"
    ∧ (read_parquet_data_core (mkFile (List.replicate 10 100)) 250 10).row_count = 10 := by
  exact ⟨by decide, by decide, by decide, by decide, by decide, by decide, by decide⟩

/-- C2: for the boundary-spanning window `[11, 21)` on a file with row groups
of sizes 10, 3, 10 (cell at file row `r` is `toString r`), the code's
selected-row-groups read plus its slice returns file row 18 first, while
reading the whole file and slicing to the window returns file row 11 first:
the two reads are not row-for-row identical. -/
theorem c2_selected_vs_wholefile :
    selectRowGroups (rgSizes (mkFile [10, 3, 10])) 11 21 = [1, 2]
    ∧ firstCell (read_parquet_data_core (mkFile [10, 3, 10]) 11 10) = some "18"
    ∧ firstCell (readWholeFileThenSlice (mkFile [10, 3, 10]) 11 10) = some "11"
    ∧ read_parquet_data_core (mkFile [10, 3, 10]) 11 10
        ≠ readWholeFileThenSlice (mkFile [10, 3, 10]) 11 10 := by
  exact ⟨by decide, by decide, by decide, by decide⟩

/-- C3 counterexample: for `start_row = 5 ≥ total_rows = 3` the returned
`row_count` field is `min(start_row+num_rows, total_rows) - start_row = -2`,
not `0` as the claim states. -/
theorem c3_counterexample :
    (5 : Int) ≥ totalRows (mkFile [3])
    ∧ (read_parquet_data_core (mkFile [3]) 5 10).row_count = -2
    ∧ (read_parquet_data_core (mkFile [3]) 5 10).row_count ≠ 0 := by
  exact ⟨by decide, by decide, by decide⟩

/-- C3 (amended): for `0 ≤ start_row`, `0 ≤ num_rows` with no `int` overflow,
`row_count = min(start_row+num_rows, total_rows) - start_row` (which can be
negative when `start_row > total_rows`, rather than 0); when
`start_row < total_rows` this equals `max 0 (min num_rows (total_rows -
start_row))`; and an empty clamped window yields a valid empty result
(`column_count = 0`, null data pointer), never an error. -/
theorem c3_row_count_amended (f : ParquetFile) (start_row num_rows : Int)
    (h0 : 0 ≤ start_row) (h1 : 0 ≤ num_rows)
    (h2 : start_row + num_rows < 2147483648) :
    (read_parquet_data_core f start_row num_rows).row_count
        = min (start_row + num_rows) (totalRows f) - start_row
    ∧ (start_row < totalRows f →
        (read_parquet_data_core f start_row num_rows).row_count
          = max 0 (min num_rows (totalRows f - start_row)))
    ∧ ((read_parquet_data_core f start_row num_rows).row_count ≤ 0 →
        (read_parquet_data_core f start_row num_rows).column_count = 0
        ∧ (read_parquet_data_core f start_row num_rows).data = none) := by
  have hw : i32wrap (start_row + num_rows) = start_row + num_rows :=
    i32wrap_eq_self _ (by omega) (by omega)
  have hrc := read_core_row_count f start_row num_rows
  rw [hw] at hrc
  refine ⟨hrc, fun hlt => ?_, fun hle => ?_⟩
  · rw [hrc]; omega
  · exact read_core_empty_shape f start_row num_rows (by rw [hw]; rw [hrc] at hle; omega)

theorem c3_row_count_amended_witness :
    ((0 : Int) ≤ 1 ∧ (0 : Int) ≤ 5 ∧ (1 : Int) + 5 < 2147483648)
    ∧ ((read_parquet_data_core (mkFile [3]) 1 5).row_count
          = min ((1 : Int) + 5) (totalRows (mkFile [3])) - 1
      ∧ ((1 : Int) < totalRows (mkFile [3]) →
          (read_parquet_data_core (mkFile [3]) 1 5).row_count
            = max 0 (min 5 (totalRows (mkFile [3]) - 1)))
      ∧ ((read_parquet_data_core (mkFile [3]) 1 5).row_count ≤ 0 →
          (read_parquet_data_core (mkFile [3]) 1 5).column_count = 0
          ∧ (read_parquet_data_core (mkFile [3]) 1 5).data = none)) :=
  ⟨⟨by decide, by decide, by decide⟩,
    c3_row_count_amended (mkFile [3]) 1 5 (by decide) (by decide) (by decide)⟩

/-- C6: stringification yields exactly `"NULL"` for a null cell of any
physical type, `"true"`/`"false"` for booleans, `"UNSUPPORTED"` for any
physical type outside the supported set, and a request on a file containing an
unsupported-type column still succeeds (the cell degrades to the sentinel
instead of failing the request). -/
theorem c6_stringify_sentinels :
    (∀ ty : PhysicalType, stringifyCell (Cell.null ty) = "NULL")
    ∧ stringifyCell (Cell.val (ArrowValue.vbool true)) = "true"
    ∧ stringifyCell (Cell.val (ArrowValue.vbool false)) = "false"
    ∧ (∀ tyName : String,
        stringifyCell (Cell.val (ArrowValue.vother tyName)) = "UNSUPPORTED")
    ∧ firstCell (read_parquet_data_core
        { fields := [("x", "extension")],
          rowGroups := [[[Cell.val (ArrowValue.vother "extension")]]] } 0 1)
        = some "UNSUPPORTED" := by
  exact ⟨fun ty => rfl, rfl, rfl, fun tyName => rfl, by decide⟩

/-- C9: freeing the failure sentinel (null pointer) and the empty result
(null data pointer) performs no access at all, and a fully-populated result
frees exactly its cells — but the window `[11, 21)` on row groups of sizes
10, 3, 10 yields a returned table whose rows 5..9 were never written by the
fill loop (the buggy slice offset leaves only 5 table rows for a 10-row
window), so `free_table_data` calls `free` on indeterminate pointers there:
the claim's "no invalid access for every returnable shape" fails. -/
theorem c9_free_safety :
    free_table_data_accesses_valid none = true
    ∧ free_schema_info_accesses_valid none = true
    ∧ free_table_data_accesses_valid
        (some (read_parquet_data_core (mkFile [3]) 5 10)) = true
    ∧ free_schema_info_accesses_valid
        (read_parquet_schema (fun _ => some (mkFile [3])) ⟨[], 0⟩ "p").1 = true
    ∧ free_table_data_accesses_valid
        (some (read_parquet_data_core (mkFile [3]) 1 2)) = true
    ∧ free_table_data_accesses_valid
        (some (read_parquet_data_core (mkFile [10, 3, 10]) 11 10)) = false := by
  exact ⟨rfl, rfl, by decide, by decide, by decide, by decide⟩

/-- C10: the DATE32 branch computes `days * 86400` in 32-bit signed arithmetic
before widening to `time_t`; for every day count of at least 24856 or at most
-24857 the product exceeds the `int` range, so the seconds value the date
rendering receives is the wrap of the true product modulo 2^32
(hence a different, wrong date). -/
theorem c10_date32_wrap (days : Int)
    (hlo : -2147483648 ≤ days) (hhi : days < 2147483648)
    (hbig : 24856 ≤ days ∨ days ≤ -24857) :
    stringifyCell (Cell.val (ArrowValue.vdate32 days))
        = formatDate (i32wrap (days * 86400))
    ∧ i32wrap (days * 86400) ≠ days * 86400
    ∧ (i32wrap (days * 86400) - days * 86400) % 4294967296 = 0 := by
  refine ⟨rfl, ?_, ?_⟩
  · unfold i32wrap; omega
  · unfold i32wrap; omega

theorem c10_date32_wrap_witness :
    ((-2147483648 : Int) ≤ 24856 ∧ (24856 : Int) < 2147483648
      ∧ ((24856 : Int) ≤ 24856 ∨ (24856 : Int) ≤ -24857))
    ∧ (stringifyCell (Cell.val (ArrowValue.vdate32 24856))
          = formatDate (i32wrap (24856 * 86400))
      ∧ i32wrap ((24856 : Int) * 86400) ≠ 24856 * 86400
      ∧ (i32wrap ((24856 : Int) * 86400) - 24856 * 86400) % 4294967296 = 0) :=
  ⟨⟨by decide, by decide, by decide⟩,
    c10_date32_wrap 24856 (by decide) (by decide) (by decide)⟩

theorem runningTotal_zero (sizes : List Int) : runningTotal sizes 0 = 0 := rfl

theorem runningTotal_cons_succ (s : Int) (rest : List Int) (k : Nat) :
    runningTotal (s :: rest) (k + 1) = s + runningTotal rest k := by
  simp [runningTotal]

theorem runningTotal_nonneg (sizes : List Int) (k : Nat)
    (h : ∀ x ∈ sizes, 0 ≤ x) : 0 ≤ runningTotal sizes k :=
  List.sum_nonneg fun x hx => h x (List.take_subset k sizes hx)

theorem runningTotal_succ (sizes : List Int) (k : Nat) (hk : k < sizes.length) :
    runningTotal sizes (k + 1) = runningTotal sizes k + sizes.getD k 0 := by
  unfold runningTotal
  rw [List.take_succ, List.getElem?_eq_getElem hk, List.sum_append,
    List.getD_eq_getElem sizes 0 hk]
  simp

theorem runningTotal_le_succ (sizes : List Int) (k : Nat)
    (h : ∀ x ∈ sizes, 0 ≤ x) :
    runningTotal sizes k ≤ runningTotal sizes (k + 1) := by
  by_cases hk : k < sizes.length
  · rw [runningTotal_succ sizes k hk]
    have hmem : sizes.getD k 0 ∈ sizes := by
      rw [List.getD_eq_getElem sizes 0 hk]
      exact List.getElem_mem hk
    have := h _ hmem
    omega
  · have hlen : sizes.length ≤ k := Nat.le_of_not_lt hk
    simp [runningTotal, List.take_of_length_le hlen,
      List.take_of_length_le (Nat.le_succ_of_le hlen)]

theorem runningTotal_mono (sizes : List Int) (h : ∀ x ∈ sizes, 0 ≤ x)
    {a b : Nat} (hab : a ≤ b) :
    runningTotal sizes a ≤ runningTotal sizes b := by
  induction hab with
  | refl => exact le_refl _
  | step _ ih => exact le_trans ih (runningTotal_le_succ sizes _ h)

/-- Membership in the selection loop's output, with the accumulator made
explicit: group `idx + k` is pushed exactly when the code's condition holds at
running total `c + runningTotal sizes k` (for nonnegative sizes, the break
after reaching `end_row` never cuts off a group that would satisfy the
condition). -/
theorem mem_selectAux_iff (start_row end_row : Int) (sizes : List Int)
    (c : Int) (idx j : Nat) :
    (∀ x ∈ sizes, 0 ≤ x) →
    (j ∈ selectAux start_row end_row sizes c idx ↔
      ∃ k, k < sizes.length ∧ j = idx + k
        ∧ c + runningTotal sizes k < end_row
        ∧ start_row < c + runningTotal sizes k + sizes.getD k 0) := by
  induction sizes generalizing c idx with
  | nil => intro _; simp [selectAux]
  | cons s rest ih =>
    intro hnn
    have hs : 0 ≤ s := hnn s (List.mem_cons_self _ _)
    have hrest : ∀ x ∈ rest, 0 ≤ x := fun x hx => hnn x (List.mem_cons_of_mem _ hx)
    simp only [selectAux]
    by_cases hb : c + s ≥ end_row
    · rw [if_pos hb]
      constructor
      · intro hj
        by_cases hp : c + s > start_row ∧ c < end_row
        · rw [if_pos hp] at hj
          have hj' : j = idx := by simpa using hj
          refine ⟨0, by simp, by simpa using hj', ?_, ?_⟩
          · simpa [runningTotal_zero] using hp.2
          · simpa [runningTotal_zero, List.getD_cons_zero] using hp.1
        · rw [if_neg hp] at hj
          simp at hj
      · rintro ⟨k, hk, hjk, h1, h2⟩
        cases k with
        | zero =>
          rw [runningTotal_zero] at h1 h2
          rw [List.getD_cons_zero] at h2
          have hp : c + s > start_row ∧ c < end_row := ⟨by omega, by omega⟩
          rw [if_pos hp]
          simp [hjk]
        | succ k =>
          rw [runningTotal_cons_succ] at h1
          have hnng := runningTotal_nonneg rest k hrest
          exact absurd h1 (by omega)
    · rw [if_neg hb]
      constructor
      · intro hj
        rcases List.mem_append.mp hj with hj | hj
        · by_cases hp : c + s > start_row ∧ c < end_row
          · rw [if_pos hp] at hj
            have hj' : j = idx := by simpa using hj
            refine ⟨0, by simp, by simpa using hj', ?_, ?_⟩
            · rw [runningTotal_zero]; omega
            · rw [runningTotal_zero, List.getD_cons_zero]; omega
          · rw [if_neg hp] at hj
            simp at hj
        · rcases (ih (c + s) (idx + 1) hrest).mp hj with ⟨k, hk, hjk, h1, h2⟩
          refine ⟨k + 1, by simpa using Nat.succ_lt_succ hk, by omega, ?_, ?_⟩
          · rw [runningTotal_cons_succ]; omega
          · rw [runningTotal_cons_succ, List.getD_cons_succ]; omega
      · rintro ⟨k, hk, hjk, h1, h2⟩
        cases k with
        | zero =>
          apply List.mem_append.mpr
          left
          rw [runningTotal_zero] at h1 h2
          rw [List.getD_cons_zero] at h2
          have hp : c + s > start_row ∧ c < end_row := ⟨by omega, by omega⟩
          rw [if_pos hp]
          simp [hjk]
        | succ k =>
          apply List.mem_append.mpr
          right
          apply (ih (c + s) (idx + 1) hrest).mpr
          rw [runningTotal_cons_succ] at h1
          rw [runningTotal_cons_succ, List.getD_cons_succ] at h2
          exact ⟨k, by simpa using hk, by omega, by omega, by omega⟩

/-- The selection loop emits indices in strictly increasing order starting at
`idx`: its output is a sublist of `range' idx sizes.length`. -/
theorem selectAux_sublist (start_row end_row : Int) (sizes : List Int)
    (c : Int) (idx : Nat) :
    (selectAux start_row end_row sizes c idx).Sublist
      (List.range' idx sizes.length) := by
  induction sizes generalizing c idx with
  | nil => simp [selectAux]
  | cons s rest ih =>
    simp only [selectAux, List.length_cons, List.range'_succ]
    by_cases hb : c + s ≥ end_row
    · rw [if_pos hb]
      by_cases hp : c + s > start_row ∧ c < end_row
      · rw [if_pos hp]
        exact (List.nil_sublist _).cons₂ _
      · rw [if_neg hp]
        exact List.nil_sublist _
    · rw [if_neg hb]
      by_cases hp : c + s > start_row ∧ c < end_row
      · rw [if_pos hp]
        simpa using (ih (c + s) (idx + 1)).cons₂ idx
      · rw [if_neg hp]
        simpa using (ih (c + s) (idx + 1)).cons idx

theorem selectRowGroups_nodup (sizes : List Int) (start_row end_row : Int) :
    (selectRowGroups sizes start_row end_row).Nodup :=
  (selectAux_sublist start_row end_row sizes 0 0).nodup (List.nodup_range' _ _)

theorem eq_singleton_of_nodup_mem {l : List Nat} {g : Nat} (hnd : l.Nodup)
    (hg : g ∈ l) (hall : ∀ x ∈ l, x = g) : l = [g] := by
  cases l with
  | nil => cases hg
  | cons x xs =>
    have hx : x = g := hall x (List.mem_cons_self _ _)
    subst hx
    cases xs with
    | nil => rfl
    | cons y ys =>
      have hy : y = x := hall y (List.mem_cons_of_mem _ (List.mem_cons_self _ _))
      subst hy
      exact absurd (List.mem_cons_self _ _) (List.nodup_cons.mp hnd).1

/-- C4 (amended): for positive row-group sizes and a nonempty window, a row
group is selected exactly when its interval `[running_total,
running_total+size)` intersects `[start_row, end_row)`; every selected group
has `running_total < end_row` (groups strictly after the window are never
included); and a window lying entirely within a single row group selects
exactly that one group.  (For a zero-size row group the "exactly when"
direction fails — see the counterexample — which is the only change forced.) -/
theorem c4_selection_amended (sizes : List Int) (start_row end_row : Int)
    (hpos : ∀ x ∈ sizes, 0 < x) (hw : start_row < end_row) :
    (∀ j, j ∈ selectRowGroups sizes start_row end_row ↔
        j < sizes.length ∧
          intervalIntersects (runningTotal sizes j)
            (runningTotal sizes j + sizes.getD j 0) start_row end_row)
    ∧ (∀ j ∈ selectRowGroups sizes start_row end_row,
        runningTotal sizes j < end_row)
    ∧ (∀ g, g < sizes.length → runningTotal sizes g ≤ start_row →
        end_row ≤ runningTotal sizes g + sizes.getD g 0 →
        selectRowGroups sizes start_row end_row = [g]) := by
  have hnn : ∀ x ∈ sizes, 0 ≤ x := fun x hx => le_of_lt (hpos x hx)
  have hsz : ∀ j, j < sizes.length → 0 < sizes.getD j 0 := by
    intro j hj
    rw [List.getD_eq_getElem sizes 0 hj]
    exact hpos _ (List.getElem_mem hj)
  have hmem : ∀ j, j ∈ selectRowGroups sizes start_row end_row ↔
      j < sizes.length ∧ runningTotal sizes j < end_row
        ∧ start_row < runningTotal sizes j + sizes.getD j 0 := by
    intro j
    rw [selectRowGroups, mem_selectAux_iff start_row end_row sizes 0 0 j hnn]
    constructor
    · rintro ⟨k, hk, hjk, h1, h2⟩
      obtain rfl : j = k := by omega
      exact ⟨hk, by omega, by omega⟩
    · rintro ⟨h1, h2, h3⟩
      exact ⟨j, h1, by omega, by omega, by omega⟩
  refine ⟨?_, ?_, ?_⟩
  · intro j
    rw [hmem j, intervalIntersects]
    constructor
    · rintro ⟨h1, h2, h3⟩
      have := hsz j h1
      exact ⟨h1, by omega⟩
    · rintro ⟨h1, h2⟩
      exact ⟨h1, by omega, by omega⟩
  · intro j hj
    exact ((hmem j).mp hj).2.1
  · intro g hg hle hge
    apply eq_singleton_of_nodup_mem (selectRowGroups_nodup sizes start_row end_row)
    · rw [hmem g]
      exact ⟨hg, by omega, by omega⟩
    · intro x hx
      rw [hmem x] at hx
      obtain ⟨hxlen, hx1, hx2⟩ := hx
      by_contra hne
      rcases Nat.lt_or_ge x g with hlt | hge2
      · have hstep := runningTotal_succ sizes x hxlen
        have hmono := runningTotal_mono sizes hnn (show x + 1 ≤ g by omega)
        omega
      · have hgt : g < x := by omega
        have hstep := runningTotal_succ sizes g hg
        have hmono := runningTotal_mono sizes hnn (show g + 1 ≤ x by omega)
        omega

/-- C4 counterexample: with row-group sizes `[2, 0, 2]` and window `[1, 3)`,
the zero-size group 1 is selected although its interval `[2, 2)` is empty and
intersects nothing. -/
theorem c4_counterexample :
    selectRowGroups [2, 0, 2] 1 3 = [0, 1, 2]
    ∧ (1 : Nat) ∈ selectRowGroups [2, 0, 2] 1 3
    ∧ runningTotal [2, 0, 2] 1 = 2
    ∧ ¬ intervalIntersects 2 (2 + 0) 1 3 := by
  exact ⟨by decide, by decide, by decide, by decide⟩

theorem c4_selection_amended_witness :
    ((∀ x ∈ [(2 : Int), 2], 0 < x) ∧ (1 : Int) < 3)
    ∧ ((∀ j, j ∈ selectRowGroups [2, 2] 1 3 ↔
          j < ([(2 : Int), 2]).length ∧
            intervalIntersects (runningTotal [2, 2] j)
              (runningTotal [2, 2] j + ([(2 : Int), 2]).getD j 0) 1 3)
      ∧ (∀ j ∈ selectRowGroups [2, 2] 1 3, runningTotal [2, 2] j < 3)
      ∧ (∀ g, g < ([(2 : Int), 2]).length → runningTotal [2, 2] g ≤ 1 →
          3 ≤ runningTotal [2, 2] g + ([(2 : Int), 2]).getD g 0 →
          selectRowGroups [2, 2] 1 3 = [g])) :=
  ⟨⟨by decide, by decide⟩, c4_selection_amended [2, 2] 1 3 (by decide) (by decide)⟩

theorem lookup_cons_self {β : Type} (k : String) (v : β) (l : List (String × β)) :
    List.lookup k ((k, v) :: l) = some v := by
  simp [List.lookup_cons]

theorem lookup_eq_none_forall {β : Type} (l : List (String × β)) (k : String) :
    List.lookup k l = none → ∀ p ∈ l, p.1 ≠ k := by
  induction l with
  | nil => intro _ p hp; cases hp
  | cons hd tl ih =>
    intro h p hp
    obtain ⟨k1, v1⟩ := hd
    rw [List.lookup_cons] at h
    by_cases hk : k = k1
    · rw [show (k == k1) = true by simp [hk]] at h
      exact Option.noConfusion h
    · rw [show (k == k1) = false by simp [hk]] at h
      rcases List.mem_cons.mp hp with rfl | hp2
      · exact fun he => hk he.symm
      · exact ih h p hp2

theorem lookup_filter_ne_none {β : Type} (l : List (String × β)) (k : String) :
    List.lookup k (l.filter fun e => e.1 != k) = none := by
  induction l with
  | nil => rfl
  | cons hd tl ih =>
    obtain ⟨k1, v1⟩ := hd
    rw [List.filter_cons]
    by_cases hk : k1 = k
    · rw [if_neg (by simp [hk])]
      exact ih
    · rw [if_pos (by simpa using hk)]
      rw [List.lookup_cons]
      rw [show (k == k1) = false by simp [Ne.symm hk]]
      exact ih

theorem filter_ne_eq_self {β : Type} (l : List (String × β)) (k : String)
    (h : ∀ p ∈ l, p.1 ≠ k) : (l.filter fun e => e.1 != k) = l := by
  rw [List.filter_eq_self]
  intro p hp
  simpa using h p hp

theorem get_cached_reader_hit (fs : String → Option ParquetFile) (s : CacheState)
    (path : String) (r : ParquetFile) (h : s.cache.lookup path = some r) :
    get_cached_reader fs s path = (some r, s) := by
  unfold get_cached_reader
  rw [h]

theorem get_cached_reader_miss_open (fs : String → Option ParquetFile)
    (s : CacheState) (path : String) (f : ParquetFile)
    (h1 : s.cache.lookup path = none) (h2 : fs path = some f) :
    get_cached_reader fs s path
      = (some f, { cache := (path, f) :: s.cache, opens := s.opens + 1 }) := by
  unfold get_cached_reader
  rw [h1, h2]

theorem get_cached_reader_miss_fail (fs : String → Option ParquetFile)
    (s : CacheState) (path : String)
    (h1 : s.cache.lookup path = none) (h2 : fs path = none) :
    get_cached_reader fs s path = (none, s) := by
  unfold get_cached_reader
  rw [h1, h2]

/-- C5: when the path is not cached and opening it fails, both
`read_parquet_schema` and `read_parquet_data` return the null sentinel (never
a partial result), and the cache state is returned unchanged — in particular
no entry for the path is retained. -/
theorem c5_open_failure_not_cached (fs : String → Option ParquetFile)
    (s : CacheState) (path : String) (start_row num_rows : Int)
    (hmiss : s.cache.lookup path = none) (hfail : fs path = none) :
    read_parquet_schema fs s path = (none, s)
    ∧ read_parquet_data fs s path start_row num_rows = (none, s)
    ∧ (read_parquet_schema fs s path).2.cache.lookup path = none
    ∧ (read_parquet_data fs s path start_row num_rows).2.cache.lookup path
        = none := by
  have h : get_cached_reader fs s path = (none, s) :=
    get_cached_reader_miss_fail fs s path hmiss hfail
  have hs : read_parquet_schema fs s path = (none, s) := by
    unfold read_parquet_schema
    rw [h]
  have hd : read_parquet_data fs s path start_row num_rows = (none, s) := by
    unfold read_parquet_data
    rw [h]
  exact ⟨hs, hd, by rw [hs]; exact hmiss, by rw [hd]; exact hmiss⟩

theorem c5_open_failure_witness :
    ((⟨[], 0⟩ : CacheState).cache.lookup "missing.parquet" = none
      ∧ (fun _ : String => (none : Option ParquetFile)) "missing.parquet" = none)
    ∧ (read_parquet_schema (fun _ => none) ⟨[], 0⟩ "missing.parquet"
          = (none, ⟨[], 0⟩)
      ∧ read_parquet_data (fun _ => none) ⟨[], 0⟩ "missing.parquet" 0 1
          = (none, ⟨[], 0⟩)
      ∧ (read_parquet_schema (fun _ => none) ⟨[], 0⟩
            "missing.parquet").2.cache.lookup "missing.parquet" = none
      ∧ (read_parquet_data (fun _ => none) ⟨[], 0⟩ "missing.parquet"
            0 1).2.cache.lookup "missing.parquet" = none) :=
  ⟨⟨rfl, rfl⟩,
    c5_open_failure_not_cached (fun _ => none) ⟨[], 0⟩ "missing.parquet" 0 1 rfl rfl⟩

/-- C7: once an acquire has returned a handle, acquiring the same path again
returns the very same handle and leaves the state untouched (no re-open, no
re-parse), the handle is the one the cache holds for the path, and the
one-entry-per-path invariant (no duplicate keys) is preserved. -/
theorem c7_acquire_idempotent (fs : String → Option ParquetFile) (s : CacheState)
    (path : String) (r : ParquetFile) (s1 : CacheState)
    (h : get_cached_reader fs s path = (some r, s1))
    (hnd : (s.cache.map Prod.fst).Nodup) :
    get_cached_reader fs s1 path = (some r, s1)
    ∧ s1.cache.lookup path = some r
    ∧ (s1.cache.map Prod.fst).Nodup := by
  cases hl : s.cache.lookup path with
  | some v =>
    rw [get_cached_reader_hit fs s path v hl] at h
    injection h with h1 h2
    obtain rfl : v = r := Option.some.inj h1
    subst h2
    exact ⟨get_cached_reader_hit fs s path v hl, hl, hnd⟩
  | none =>
    cases hf : fs path with
    | none =>
      rw [get_cached_reader_miss_fail fs s path hl hf] at h
      exact absurd h (by simp)
    | some f =>
      rw [get_cached_reader_miss_open fs s path f hl hf] at h
      injection h with h1 h2
      obtain rfl : f = r := Option.some.inj h1
      subst h2
      have hlk : ({ cache := (path, f) :: s.cache, opens := s.opens + 1 }
          : CacheState).cache.lookup path = some f :=
        lookup_cons_self path f s.cache
      refine ⟨get_cached_reader_hit fs _ path f hlk, hlk, ?_⟩
      have hnotin : path ∉ s.cache.map Prod.fst := by
        intro hmem
        rcases List.mem_map.mp hmem with ⟨p, hp, hpe⟩
        exact lookup_eq_none_forall s.cache path hl p hp hpe
      simpa using List.nodup_cons.mpr ⟨hnotin, hnd⟩

theorem c7_acquire_idempotent_witness :
    (get_cached_reader (fun _ => some (mkFile [1])) ⟨[], 0⟩ "p"
        = (some (mkFile [1]), ⟨[("p", mkFile [1])], 1⟩)
      ∧ ((⟨[], 0⟩ : CacheState).cache.map Prod.fst).Nodup)
    ∧ (get_cached_reader (fun _ => some (mkFile [1])) ⟨[("p", mkFile [1])], 1⟩ "p"
        = (some (mkFile [1]), ⟨[("p", mkFile [1])], 1⟩)
      ∧ (⟨[("p", mkFile [1])], 1⟩ : CacheState).cache.lookup "p"
          = some (mkFile [1])
      ∧ ((⟨[("p", mkFile [1])], 1⟩ : CacheState).cache.map Prod.fst).Nodup) :=
  ⟨⟨rfl, by simp⟩,
    c7_acquire_idempotent (fun _ => some (mkFile [1])) ⟨[], 0⟩ "p" (mkFile [1])
      ⟨[("p", mkFile [1])], 1⟩ rfl (by simp)⟩

/-- C8: `clear_parquet_cache path` removes any cached handle for the path, is
a no-op when none is cached, a subsequent acquire (e.g. through
`read_parquet_schema`) re-opens the file — the open count increments instead
of reusing a prior handle — and `clear_all_parquet_cache` empties the cache. -/
theorem c8_invalidate (fs : String → Option ParquetFile) (s : CacheState)
    (path : String) (f : ParquetFile) :
    (clear_parquet_cache s path).cache.lookup path = none
    ∧ (s.cache.lookup path = none → clear_parquet_cache s path = s)
    ∧ (fs path = some f →
        get_cached_reader fs (clear_parquet_cache s path) path
          = (some f, { cache := (path, f) :: (clear_parquet_cache s path).cache,
                       opens := s.opens + 1 })
        ∧ (read_parquet_schema fs (clear_parquet_cache s path) path).2.opens
            = s.opens + 1)
    ∧ (clear_all_parquet_cache s).cache = [] := by
  have hnone : (clear_parquet_cache s path).cache.lookup path = none :=
    lookup_filter_ne_none s.cache path
  refine ⟨hnone, ?_, ?_, rfl⟩
  · intro h
    unfold clear_parquet_cache
    rw [filter_ne_eq_self s.cache path (lookup_eq_none_forall s.cache path h)]
  · intro hf
    have hopen :=
      get_cached_reader_miss_open fs (clear_parquet_cache s path) path f hnone hf
    refine ⟨by rw [hopen]; rfl, ?_⟩
    unfold read_parquet_schema
    rw [hopen]
    rfl

theorem c8_invalidate_witness :
    ((clear_parquet_cache ⟨[("p", mkFile [1])], 1⟩ "p").cache.lookup "p" = none)
    ∧ (clear_parquet_cache ⟨[], 0⟩ "p" = ⟨[], 0⟩)
    ∧ (get_cached_reader (fun _ => some (mkFile [1]))
          (clear_parquet_cache ⟨[("p", mkFile [1])], 1⟩ "p") "p"
        = (some (mkFile [1]),
            { cache := ("p", mkFile [1])
                :: (clear_parquet_cache ⟨[("p", mkFile [1])], 1⟩ "p").cache,
              opens := 1 + 1 })
      ∧ (read_parquet_schema (fun _ => some (mkFile [1]))
            (clear_parquet_cache ⟨[("p", mkFile [1])], 1⟩ "p") "p").2.opens
          = 1 + 1)
    ∧ (clear_all_parquet_cache ⟨[("p", mkFile [1])], 1⟩).cache = [] :=
  ⟨(c8_invalidate (fun _ => some (mkFile [1])) ⟨[("p", mkFile [1])], 1⟩ "p"
      (mkFile [1])).1,
   (c8_invalidate (fun _ => some (mkFile [1])) ⟨[], 0⟩ "p" (mkFile [1])).2.1 rfl,
   (c8_invalidate (fun _ => some (mkFile [1])) ⟨[("p", mkFile [1])], 1⟩ "p"
      (mkFile [1])).2.2.1 rfl,
   (c8_invalidate (fun _ => some (mkFile [1])) ⟨[("p", mkFile [1])], 1⟩ "p"
      (mkFile [1])).2.2.2⟩
